import Mathlib

/-!
# Verification of the `safe` package (panic capture and conversion)

Shallow embedding of `src/safe.go`. The package converts Go panics into
ordinary `error` values:

* `panicError` / `PanicError.Panic` — the fault envelope and its payload
  accessor (`safe.go` lines 27–42);
* `Do` / `DoWithResult` — guarded synchronous calls (lines 46–64);
* `Go` + `handlePanic` + `SetPanicHandler` — guarded background launch
  routed to the global atomic handler (lines 68–77, 126–150);
* `Group` over a model of `errgroup.Group` — first-failure aggregation
  (lines 84–124).

Modelling conventions: a Go function body that may panic is represented by
its execution result, `Except α r` — `Except.error p` means the body
panicked with payload `p` (the value `recover()` observes), `Except.ok v`
means it returned normally with `v`.  Panic payloads live in an arbitrary
type `α` and native error values in an arbitrary type `ε`, so "any payload,
of any type" is literal.  Stack capture (`errors.Errorf` inside
`panicError`) is an effect of the runtime; the trace captured at an
interception point is passed in as an explicit `StackTrace` argument.
Goroutine scheduling is modelled by quantifying over completion orders:
a group run is a list of subtask results in the order they complete, and
a handler trace is a list of atomic store / dispatch operations in the
order the atomic cell serialises them.
-/

namespace Safe

/-- An ordered sequence of captured stack-frame descriptors
(`errors.StackTrace` of pkg/errors). -/
structure StackTrace where
  frames : List String
deriving DecidableEq, Repr

/-- pkg/errors renders a stack trace under `%+v` as one frame per line. -/
def renderStack (st : StackTrace) : String :=
  st.frames.foldl (fun acc f => acc ++ "\n" ++ f) ""

/-- Model of `PanicError` (`safe.go` lines 27–30): wraps a panic value `val`,
embedding a pkg/errors error that carries the message `"panic: <val>"`
and the stack trace captured at interception time. -/
structure PanicError (α : Type) where
  msg : String
  stack : StackTrace
  val : α
deriving DecidableEq, Repr

/-- Accessor `PanicError.Panic` (lines 33–35): returns the underlying value passed
to `panic()`, unmodified. -/
def PanicError.Panic (p : PanicError α) : α :=
  p.val

/-- The `%+v` rendering of a `PanicError`: the embedded pkg/errors
formatter prints the message followed by the stack trace. -/
def formatDetailed (e : PanicError α) : String :=
  e.msg ++ renderStack e.stack

/-- A Go `error` value as it occurs in this package: either a native error
(any value of `ε`) or a `PanicError`.  A Go `error` may also be nil, which
the embedding writes `Option (Error ε α)` with `none` for nil. -/
inductive Error (ε α : Type) where
  | native : ε → Error ε α
  | panicErr : PanicError α → Error ε α
deriving DecidableEq, Repr

/-- Constructor `panicError` (lines 38–42): builds a `PanicError` for panic value
`val`, with message `"panic: %v"` (the `%v` rendering of the payload is
the explicit `render` argument) and the stack `st` captured by
`errors.Errorf` at the interception point.  The payload is stored as
received: no coercion, no stringification. -/
def panicError (render : α → String) (st : StackTrace) (val : α) : PanicError α :=
  { msg := "panic: " ++ render val, stack := st, val := val }

/-- Guarded call `Do` (lines 46–53): runs `fn`; a normal return passes the returned
error through unchanged, a panic is recovered by the deferred closure and
converted with `panicError`. -/
def Do (render : α → String) (st : StackTrace)
    (fn : Except α (Option (Error ε α))) : Option (Error ε α) :=
  match fn with
  | Except.ok e => e
  | Except.error p => some (Error.panicErr (panicError render st p))

/-- Guarded call `DoWithResult` (lines 57–64): like `Do` for `fn` returning a result
and an error.  On panic the named result `res` keeps its zero value —
`interface{}`'s zero value nil, i.e. `none`. -/
def DoWithResult (render : α → String) (st : StackTrace)
    (fn : Except α (Option β × Option (Error ε α))) :
    Option β × Option (Error ε α) :=
  match fn with
  | Except.ok (v, e) => (v, e)
  | Except.error p => (none, some (Error.panicErr (panicError render st p)))

/-- Behaviour of a configured panic handler `func(err error)` on a given
argument: `none` means it returns normally, `some q` means it itself
panics with payload `q`. -/
def Handler (ε α : Type) :=
  Error ε α → Option α

/-- The contents of the `panicHandler` atomic cell (line 126): never
stored into (`Load` yields a nil interface), stored a typed-nil function
(`SetPanicHandler(nil)`), or stored a real handler. -/
inductive StoredHandler (ε α : Type) where
  | unset : StoredHandler ε α
  | typedNil : StoredHandler ε α
  | stored : Handler ε α → StoredHandler ε α

/-- The interface value handed to `atomic.Value.Store`: a nil interface,
or a value of dynamic type `func(err error)` (possibly a nil function). -/
inductive IfaceArg (ε α : Type) where
  | nilIface : IfaceArg ε α
  | funcArg : Option (Handler ε α) → IfaceArg ε α

/-- Semantics of `sync/atomic.Value.Store`: storing a nil interface value
panics; storing any non-nil interface (a typed nil function included)
succeeds and replaces the cell's contents. -/
def atomicValueStore (v : IfaceArg ε α) : Except String (StoredHandler ε α) :=
  match v with
  | IfaceArg.nilIface => Except.error "sync/atomic: store of nil value into Value"
  | IfaceArg.funcArg none => Except.ok StoredHandler.typedNil
  | IfaceArg.funcArg (some h) => Except.ok (StoredHandler.stored h)

/-- Configuration `SetPanicHandler` (lines 131–133): `panicHandler.Store(fn)`.  The
argument always has dynamic type `func(err error)`, so the stored
interface is non-nil even when `fn` is nil. -/
def SetPanicHandler (fn : Option (Handler ε α)) : Except String (StoredHandler ε α) :=
  atomicValueStore (IfaceArg.funcArg fn)

/-- Model of `fn, _ := panicHandler.Load().(func(err error))` and the
`fn == nil` test (lines 137–138): a never-stored cell fails the type
assertion and a typed-nil store passes it with a nil function — both
leave `fn == nil`, so both select the log fallback. -/
def loadHandler (s : StoredHandler ε α) : Option (Handler ε α) :=
  match s with
  | StoredHandler.unset => none
  | StoredHandler.typedNil => none
  | StoredHandler.stored h => some h

/-- The observable outcome of one `handlePanic` call: the fallback wrote a
log line; the handler was invoked (exactly once) with the envelope and
returned; or the handler was invoked (exactly once), panicked, the panic
was recovered and a log line written. -/
inductive DispatchResult (ε α : Type) where
  | logged : String → DispatchResult ε α
  | handled : Error ε α → DispatchResult ε α
  | handlerPanicked : Error ε α → String → DispatchResult ε α

/-- How many times the configured handler ran in a dispatch outcome. -/
def handlerCalls : DispatchResult ε α → Nat
  | DispatchResult.logged _ => 0
  | DispatchResult.handled _ => 1
  | DispatchResult.handlerPanicked _ _ => 1

/-- The envelope the configured handler was invoked with, if it was. -/
def envelopeOf : DispatchResult ε α → Option (Error ε α)
  | DispatchResult.logged _ => none
  | DispatchResult.handled e => some e
  | DispatchResult.handlerPanicked e _ => some e

/-- Dispatch `handlePanic` (lines 135–150): builds the envelope, loads the handler
atomically; with no handler logs `"%+v\n"` of the envelope; otherwise
invokes the handler inside its own deferred recover, and if the handler
panics logs both the handler's fault and the original.  `st` is the stack
at the original interception, `sth` the stack at the recover inside
`handlePanic`. -/
def handlePanic (render : α → String) (st sth : StackTrace)
    (s : StoredHandler ε α) (val : α) : DispatchResult ε α :=
  let err := panicError render st val
  match loadHandler s with
  | none => DispatchResult.logged (formatDetailed err ++ "\n")
  | some fn =>
    match fn (Error.panicErr err) with
    | none => DispatchResult.handled (Error.panicErr err)
    | some r =>
        DispatchResult.handlerPanicked (Error.panicErr err)
          ("panic in panic handler: " ++ formatDetailed (panicError render sth r)
            ++ "\noriginal: " ++ formatDetailed err ++ "\n")

/-- Execution result of a `func()` body launched by `safe.Go`: it returns,
or it panics with a payload. -/
inductive VoidOutcome (α : Type) where
  | ok : VoidOutcome α
  | panics : α → VoidOutcome α

/-- What the goroutine spawned by `safe.Go` does, observably.  The type is
total: the goroutine never re-raises, so no fault channel exists. -/
inductive GoEffect (ε α : Type) where
  | completed : GoEffect ε α
  | dispatched : DispatchResult ε α → GoEffect ε α

/-- Launch `Go` (lines 68–77): runs `fn` on a fresh goroutine; a panic is
recovered by the deferred closure and handed to `handlePanic`, with the
handler cell in state `s` at the moment of the load. -/
def Go (render : α → String) (st sth : StackTrace)
    (s : StoredHandler ε α) (fn : VoidOutcome α) : GoEffect ε α :=
  match fn with
  | VoidOutcome.ok => GoEffect.completed
  | VoidOutcome.panics p => GoEffect.dispatched (handlePanic render st sth s p)

/-- Model of `errgroup.Group` as far as this package uses it: whether the
group was built by `errgroup.WithContext` and so owns a cancel function. -/
structure ErrGroup where
  hasCancelCtx : Bool
deriving DecidableEq, Repr

/-- Model of `Group` (lines 84–87): a pointer to the underlying errgroup (nil in
the zero value) and the `sync.Once` initialisation flag. -/
structure Group where
  g : Option ErrGroup
  onceDone : Bool
deriving DecidableEq, Repr

/-- The zero `Group`: nil errgroup pointer, once not yet fired. -/
def Group.zero : Group :=
  { g := none, onceDone := false }

/-- Constructor `GroupWithContext` (lines 95–98): wraps `errgroup.WithContext ctx`,
so the underlying errgroup owns a cancellable derived context.  The
derived context itself is modelled only through cancellation effects. -/
def GroupWithContext : Group :=
  { g := some { hasCancelCtx := true }, onceDone := false }

/-- Lazy `Group.init` (lines 100–106): `once.Do` installs a fresh
`&errgroup.Group{}` (no cancel context) only when the pointer is nil. -/
def Group.init (grp : Group) : Group :=
  if grp.onceDone then grp
  else { g := some (grp.g.getD { hasCancelCtx := false }), onceDone := true }

/-- Whether the group's underlying errgroup (after the lazy init every
entry point performs) owns a cancellable context. -/
def Group.hasCtx (grp : Group) : Bool :=
  ((Group.init grp).g.getD { hasCancelCtx := false }).hasCancelCtx

/-- Accumulated state of an errgroup run: the error retained by
`errOnce`, and whether the derived context's cancel has been invoked. -/
structure GroupRun (ε α : Type) where
  firstErr : Option (Error ε α)
  canceled : Bool
deriving DecidableEq, Repr

/-- One subtask completing with result `r` inside `errgroup.Go`'s wrapper:
a nil error changes nothing; the first non-nil error is retained by the
once and cancels the derived context when there is one; any later non-nil
error is discarded. -/
def errgroupStep (hasCtx : Bool) (acc : GroupRun ε α) (r : Option (Error ε α)) :
    GroupRun ε α :=
  match r with
  | none => acc
  | some e =>
    match acc.firstErr with
    | none => { firstErr := some e, canceled := hasCtx }
    | some _ => acc

/-- Model of `errgroup.Wait`, given the subtask results in completion order: it
returns only after folding every completion (it blocks until the
wait-group drains), cancels the derived context if one exists, and yields
the retained first error. -/
def errgroupWaitRun (hasCtx : Bool) (results : List (Option (Error ε α))) :
    GroupRun ε α :=
  let r := results.foldl (errgroupStep hasCtx) { firstErr := none, canceled := false }
  { r with canceled := r.canceled || hasCtx }

/-- A subtask handed to `Group.Go`: the stack its recover point captures
and its body's execution result. -/
abbrev Subtask (ε α : Type) :=
  StackTrace × Except α (Option (Error ε α))

/-- Wrapper step of `Group.Go`: it wraps each subtask body in `Do` (lines 112–117): its result
as fed to the errgroup is always an ordinary error value, never a fault. -/
def Group.runSubtask (render : α → String) (t : Subtask ε α) :
    Option (Error ε α) :=
  Do render t.1 t.2

/-- Wait `Group.Wait` (lines 121–124) over the subtasks launched so far, listed
in the order they complete: ensure initialisation, then run the underlying
`errgroup.Wait` on the `Do`-wrapped subtask results. -/
def Group.waitRun (render : α → String) (tasks : List (Subtask ε α))
    (grp : Group) : GroupRun ε α :=
  errgroupWaitRun grp.hasCtx (tasks.map (Group.runSubtask render))

/-- One serialised operation on the `panicHandler` atomic cell:
a `SetPanicHandler` store, or the atomic load inside a `handlePanic`
dispatch of panic value `p` with interception stacks `st`, `sth`. -/
inductive HOp (ε α : Type) where
  | store : Option (Handler ε α) → HOp ε α
  | dispatch : StackTrace → StackTrace → α → HOp ε α

/-- Whether a trace operation is a store. -/
def HOp.isStoreOp : HOp ε α → Bool
  | HOp.store _ => true
  | HOp.dispatch _ _ _ => false

/-- The cell state a completed `SetPanicHandler fn` leaves behind. -/
def applyStore (s : StoredHandler ε α) (fn : Option (Handler ε α)) :
    StoredHandler ε α :=
  match SetPanicHandler fn with
  | Except.ok s2 => s2
  | Except.error _ => s

/-- Run a serialised trace of stores and dispatches against the cell:
`atomic.Value` makes every access a single indivisible step, so any
concurrent execution is one such serialisation.  Returns the final cell
state and the dispatch outcomes in trace order. -/
def execOps (render : α → String) :
    StoredHandler ε α → List (HOp ε α) →
    StoredHandler ε α × List (DispatchResult ε α)
  | s, [] => (s, [])
  | s, HOp.store f :: rest => execOps render (applyStore s f) rest
  | s, HOp.dispatch st sth p :: rest =>
      let out := execOps render s rest
      (out.1, handlePanic render st sth s p :: out.2)

/-- The dispatch outcome of a trace operation when the cell holds `s`
throughout (stores produce no dispatch outcome). -/
def dispatchOf (render : α → String) (s : StoredHandler ε α) :
    HOp ε α → Option (DispatchResult ε α)
  | HOp.store _ => none
  | HOp.dispatch st sth p => some (handlePanic render st sth s p)

/-- Proposition that `sub` occurs in `s` as a contiguous substring. -/
def strContains (s sub : String) : Prop :=
  ∃ l r, s = l ++ sub ++ r

end Safe

namespace Safe

/-! ## Helper lemmas -/

/-- Folding completions over the errgroup step keeps an already-retained
error and otherwise retains the first non-nil completion. -/
theorem foldl_errgroupStep_firstErr (hasCtx : Bool)
    (rs : List (Option (Error ε α))) (acc : GroupRun ε α) :
    (rs.foldl (errgroupStep hasCtx) acc).firstErr =
      (match acc.firstErr with
       | some e => some e
       | none => rs.findSome? id) := by
  induction rs generalizing acc with
  | nil => cases h : acc.firstErr <;> simp [h, List.findSome?]
  | cons r rest ih =>
    cases r with
    | none =>
      cases h : acc.firstErr <;>
        simp [List.foldl_cons, errgroupStep, ih, List.findSome?, h]
    | some e =>
      cases h : acc.firstErr with
      | none =>
        simp [List.foldl_cons, errgroupStep, h, ih, List.findSome?]
      | some e0 =>
        simp [List.foldl_cons, errgroupStep, h, ih, List.findSome?]

/-- A group without a cancel context never flips the cancel flag. -/
theorem foldl_errgroupStep_canceled
    (rs : List (Option (Error ε α))) (acc : GroupRun ε α)
    (hacc : acc.canceled = false) :
    (rs.foldl (errgroupStep false) acc).canceled = false := by
  induction rs generalizing acc with
  | nil => exact hacc
  | cons r rest ih =>
    cases r with
    | none => simp [List.foldl_cons, errgroupStep, ih acc hacc]
    | some e =>
      cases h : acc.firstErr with
      | none => simp [List.foldl_cons, errgroupStep, h]; exact ih _ rfl
      | some e0 => simp [List.foldl_cons, errgroupStep, h, ih acc hacc]

/-- Lemma: `findSome?` over an appended list takes the left half's answer when
there is one. -/
theorem findSome?_append (l₁ l₂ : List γ) (f : γ → Option δ) :
    (l₁ ++ l₂).findSome? f =
      (match l₁.findSome? f with
       | some b => some b
       | none => l₂.findSome? f) := by
  induction l₁ with
  | nil => simp [List.findSome?]
  | cons x xs ih =>
    cases h : f x <;> simp [List.findSome?, h, ih]

/-- Lemma: `findSome?` misses a list all of whose elements it rejects. -/
theorem findSome?_of_all_none (l : List γ) (f : γ → Option δ)
    (h : ∀ t ∈ l, f t = none) : l.findSome? f = none := by
  induction l with
  | nil => rfl
  | cons x xs ih =>
    rw [List.findSome?, h x (List.mem_cons_self x xs)]
    exact ih fun t ht => h t (List.mem_cons_of_mem x ht)

/-- Lemma: `Group.Wait` yields the first non-nil `Do`-wrapped subtask result in
completion order. -/
theorem waitRun_firstErr (render : α → String) (tasks : List (Subtask ε α))
    (grp : Group) :
    (Group.waitRun render tasks grp).firstErr =
      (tasks.map (Group.runSubtask render)).findSome? id := by
  unfold Group.waitRun errgroupWaitRun
  simp [foldl_errgroupStep_firstErr]

/-- A string trivially contains its middle segment. -/
theorem strContains_of_eq (s l sub r : String) (h : s = l ++ sub ++ r) :
    strContains s sub :=
  ⟨l, r, h⟩

/-- Running a serialised trace decomposes over concatenation: the second
half starts from the state the first half leaves. -/
theorem execOps_append (render : α → String) (s : StoredHandler ε α)
    (l₁ l₂ : List (HOp ε α)) :
    execOps render s (l₁ ++ l₂) =
      ((execOps render (execOps render s l₁).1 l₂).1,
        (execOps render s l₁).2 ++ (execOps render (execOps render s l₁).1 l₂).2) := by
  induction l₁ generalizing s with
  | nil => simp [execOps]
  | cons op rest ih =>
    cases op with
    | store f => simp [execOps, ih]
    | dispatch st sth p => simp [execOps, ih]

/-- A store-free trace leaves the cell untouched and every dispatch in it
reads the same handler. -/
theorem execOps_storeFree (render : α → String) (s : StoredHandler ε α)
    (l : List (HOp ε α)) (h : ∀ op ∈ l, op.isStoreOp = false) :
    execOps render s l = (s, l.filterMap (dispatchOf render s)) := by
  induction l with
  | nil => simp [execOps]
  | cons op rest ih =>
    cases op with
    | store f =>
      have := h (HOp.store f) (List.mem_cons_self _ _)
      simp [HOp.isStoreOp] at this
    | dispatch st sth p =>
      rw [List.filterMap_cons]
      simp only [dispatchOf, execOps,
        ih fun op hop => h op (List.mem_cons_of_mem _ hop)]

/-- A completed store determines the cell regardless of what it held. -/
theorem applyStore_const (s s2 : StoredHandler ε α)
    (f : Option (Handler ε α)) : applyStore s2 f = applyStore s f := by
  cases f <;> rfl

end Safe

namespace Safe

/-! ## The claims -/

/-- C1: a function that panics with payload `p` makes `Do` return a
non-nil error whose `PanicError.Panic` accessor yields exactly `p`
(identity, no stringification), for every payload of every type `α`. -/
theorem do_panic_preserves_payload (render : α → String) (st : StackTrace)
    (p : α) :
    ∃ pe : PanicError α,
      Do (ε := ε) render st (Except.error p) = some (Error.panicErr pe) ∧
      pe.Panic = p :=
  ⟨panicError render st p, rfl, rfl⟩

/-- C2: a function that returns normally with error `e` (nil included)
makes `Do` return exactly `e` — pass-through, no wrapping. -/
theorem do_passthrough (render : α → String) (st : StackTrace)
    (e : Option (Error ε α)) :
    Do render st (Except.ok e) = e :=
  rfl

/-- C3: `DoWithResult` passes `(v, nil)` through unchanged on a normal
return, and on a panic returns the zero value (nil `interface{}`)
together with a `PanicError` carrying the payload. -/
theorem doWithResult_cases (render : α → String) (st : StackTrace) :
    (∀ v : Option β,
        DoWithResult (ε := ε) (α := α) render st (Except.ok (v, none)) = (v, none)) ∧
    (∀ p : α, ∃ pe : PanicError α,
        DoWithResult (ε := ε) (β := β) render st (Except.error p) =
            (none, some (Error.panicErr pe)) ∧
          pe.Panic = p) :=
  ⟨fun _ => rfl, fun p => ⟨panicError render st p, rfl, rfl⟩⟩

/-- C4: a `Group.Go` subtask that panics with payload `p` never escapes
as a runtime fault: its wrapped result is an ordinary error value, and
when its failure completes first, `Group.Wait` returns a `PanicError`
whose `Panic` accessor yields the original `p` and which carries the
stack trace captured at interception. -/
theorem group_panic_arrives_as_error (render : α → String)
    (pre post : List (Subtask ε α)) (st : StackTrace) (p : α) (grp : Group)
    (hpre : ∀ t ∈ pre, Group.runSubtask render t = none) :
    ∃ pe : PanicError α,
      Group.runSubtask (ε := ε) render (st, Except.error p) =
          some (Error.panicErr pe) ∧
      (Group.waitRun render (pre ++ (st, Except.error p) :: post) grp).firstErr =
          some (Error.panicErr pe) ∧
      pe.Panic = p ∧ pe.stack = st := by
  refine ⟨panicError render st p, rfl, ?_, rfl, rfl⟩
  rw [waitRun_firstErr, List.map_append, List.map_cons, findSome?_append]
  rw [findSome?_of_all_none (pre.map (Group.runSubtask render)) id ?_]
  · rfl
  · intro t ht
    rcases List.mem_map.mp ht with ⟨u, hu, rfl⟩
    exact hpre u hu

/-- C4 witness: a three-subtask run — one clean completion, then a panic
with payload 7, then another clean completion. -/
theorem group_panic_arrives_as_error_witness :
    ∃ pe : PanicError Nat,
      Group.runSubtask (ε := String) (fun n => toString n)
          (⟨["frame"]⟩, Except.error 7) = some (Error.panicErr pe) ∧
      (Group.waitRun (fun n => toString n)
          (([(⟨["a"]⟩, Except.ok none)] : List (Subtask String Nat)) ++
            (⟨["frame"]⟩, Except.error 7) ::
              ([(⟨["b"]⟩, Except.ok none)] : List (Subtask String Nat)))
          Group.zero).firstErr = some (Error.panicErr pe) ∧
      pe.Panic = 7 ∧ pe.stack = ⟨["frame"]⟩ :=
  group_panic_arrives_as_error (fun n => toString n)
    ([(⟨["a"]⟩, Except.ok none)] : List (Subtask String Nat))
    ([(⟨["b"]⟩, Except.ok none)] : List (Subtask String Nat))
    ⟨["frame"]⟩ 7 Group.zero
    (by
      intro t ht
      rw [List.mem_singleton] at ht
      subst ht
      rfl)

/-- C5: `Group.Wait` consumes every launched subtask's completion, then
returns the first non-nil error in completion order — nil when all
succeed, later failures silently discarded. -/
theorem group_wait_first_error (render : α → String)
    (tasks : List (Subtask ε α)) (grp : Group) :
    (Group.waitRun render tasks grp).firstErr =
      (tasks.map (Group.runSubtask render)).findSome? id :=
  waitRun_firstErr render tasks grp

/-- C8: the zero `Group` is valid: lazy initialisation installs a
tracker exactly once (re-initialisation is a no-op), it never cancels
any context on subtask error, and waiting behaves exactly like an
explicitly constructed group — all subtasks consumed, first error
returned. -/
theorem zero_group_valid (render : α → String) (tasks : List (Subtask ε α)) :
    Group.init Group.zero =
        { g := some { hasCancelCtx := false }, onceDone := true } ∧
    (∀ grp : Group, Group.init (Group.init grp) = Group.init grp) ∧
    (Group.waitRun render tasks Group.zero).canceled = false ∧
    (Group.waitRun render tasks Group.zero).firstErr =
      (tasks.map (Group.runSubtask render)).findSome? id ∧
    (Group.waitRun render tasks Group.zero).firstErr =
      (Group.waitRun render tasks GroupWithContext).firstErr := by
  refine ⟨rfl, ?_, ?_, waitRun_firstErr render tasks Group.zero, ?_⟩
  · intro grp
    unfold Group.init
    by_cases h : grp.onceDone <;> simp [h]
  · simp only [Group.waitRun, errgroupWaitRun, Bool.or_false,
      show Group.hasCtx Group.zero = false from rfl]
    exact foldl_errgroupStep_canceled _ _ rfl
  · rw [waitRun_firstErr, waitRun_firstErr]

/-- C6: a panic inside a `safe.Go` body never escapes the goroutine: the
launch produces an ordinary dispatch outcome.  When a handler is
configured it runs exactly once, with a `PanicError` carrying the
original payload; with no handler (or a typed-nil one) a log line
containing the `%+v` rendering of the fault is written instead. -/
theorem go_panic_observable (render : α → String) (st sth : StackTrace)
    (s : StoredHandler ε α) (p : α) :
    Go render st sth s (VoidOutcome.panics p) =
        GoEffect.dispatched (handlePanic render st sth s p) ∧
    ((loadHandler s = none ∧
        ∃ line, handlePanic render st sth s p = DispatchResult.logged line ∧
          strContains line (formatDetailed (panicError render st p)) ∧
          handlerCalls (handlePanic render st sth s p) = 0) ∨
     (∃ h, loadHandler s = some h ∧
        handlerCalls (handlePanic render st sth s p) = 1 ∧
        envelopeOf (handlePanic render st sth s p) =
          some (Error.panicErr (panicError render st p)) ∧
        (panicError render st p).Panic = p)) := by
  refine ⟨rfl, ?_⟩
  cases s with
  | unset =>
    exact Or.inl ⟨rfl, formatDetailed (panicError render st p) ++ "\n", rfl,
      ⟨"", "\n", by simp⟩, rfl⟩
  | typedNil =>
    exact Or.inl ⟨rfl, formatDetailed (panicError render st p) ++ "\n", rfl,
      ⟨"", "\n", by simp⟩, rfl⟩
  | stored h =>
    refine Or.inr ⟨h, rfl, ?_, ?_, rfl⟩ <;>
      cases hr : h (Error.panicErr (panicError render st p)) <;>
        simp [handlePanic, loadHandler, hr, handlerCalls, envelopeOf]

/-- C7: `handlePanic` is a terminal sink: with no configured handler it
logs the detailed rendering of the envelope (stack trace included); a
configured handler that returns ends the dispatch; a configured handler
that itself panics is recovered, its fault converted to a new envelope,
and the log line contains both the handler's fault and the original —
every case yields an ordinary `DispatchResult`, nothing propagates. -/
theorem handlePanic_terminal_sink (render : α → String) (st sth : StackTrace)
    (s : StoredHandler ε α) (p : α) :
    (loadHandler s = none ∧
       handlePanic render st sth s p =
         DispatchResult.logged (formatDetailed (panicError render st p) ++ "\n") ∧
       strContains (formatDetailed (panicError render st p)) (renderStack st)) ∨
    (∃ h, loadHandler s = some h ∧
      ((h (Error.panicErr (panicError render st p)) = none ∧
          handlePanic render st sth s p =
            DispatchResult.handled (Error.panicErr (panicError render st p))) ∨
       (∃ q, h (Error.panicErr (panicError render st p)) = some q ∧
          ∃ line, handlePanic render st sth s p =
              DispatchResult.handlerPanicked
                (Error.panicErr (panicError render st p)) line ∧
            strContains line (formatDetailed (panicError render sth q)) ∧
            strContains line (formatDetailed (panicError render st p))))) := by
  cases s with
  | unset =>
    exact Or.inl ⟨rfl, rfl,
      ⟨(panicError render st p).msg, "", by simp [formatDetailed, panicError]⟩⟩
  | typedNil =>
    exact Or.inl ⟨rfl, rfl,
      ⟨(panicError render st p).msg, "", by simp [formatDetailed, panicError]⟩⟩
  | stored h =>
    refine Or.inr ⟨h, rfl, ?_⟩
    cases hr : h (Error.panicErr (panicError render st p)) with
    | none =>
      exact Or.inl ⟨rfl, by simp [handlePanic, loadHandler, hr]⟩
    | some q =>
      refine Or.inr ⟨q, rfl,
        "panic in panic handler: " ++ formatDetailed (panicError render sth q)
          ++ "\noriginal: " ++ formatDetailed (panicError render st p) ++ "\n",
        by simp [handlePanic, loadHandler, hr], ?_, ?_⟩
      · exact ⟨"panic in panic handler: ",
          "\noriginal: " ++ formatDetailed (panicError render st p) ++ "\n",
          by simp [String.append_assoc]⟩
      · exact ⟨"panic in panic handler: "
            ++ formatDetailed (panicError render sth q) ++ "\noriginal: ",
          "\n", by simp [String.append_assoc]⟩

/-- C9: every access to the global handler is an atomic-cell step, so any
concurrent execution serialises into a trace: a `SetPanicHandler` store
always completes without fault, leaves a cell state independent of what
it overwrote, and every dispatch serialised after the store (with no
later store) reads exactly the stored handler. -/
theorem handler_store_visibility (render : α → String)
    (s : StoredHandler ε α) (pre post : List (HOp ε α))
    (f : Option (Handler ε α))
    (hpost : ∀ op ∈ post, HOp.isStoreOp op = false) :
    (∀ g : Option (Handler ε α), ∃ s2, SetPanicHandler g = Except.ok s2) ∧
    (∀ s2 : StoredHandler ε α, applyStore s2 f = applyStore s f) ∧
    (execOps render s (pre ++ HOp.store f :: post)).2 =
      (execOps render s pre).2 ++
        post.filterMap (dispatchOf render (applyStore s f)) := by
  refine ⟨?_, fun s2 => applyStore_const s s2 f, ?_⟩
  · intro g
    cases g with
    | none => exact ⟨StoredHandler.typedNil, rfl⟩
    | some h => exact ⟨StoredHandler.stored h, rfl⟩
  · rw [execOps_append]
    have h1 : execOps render (execOps render s pre).1 (HOp.store f :: post) =
        execOps render (applyStore (execOps render s pre).1 f) post := rfl
    rw [h1, applyStore_const s (execOps render s pre).1 f,
      execOps_storeFree render (applyStore s f) post hpost]

/-- C9 witness: a dispatch, then a store of a returning handler, then a
dispatch, starting from the never-set cell. -/
theorem handler_store_visibility_witness :
    (∀ g : Option (Handler String Nat), ∃ s2, SetPanicHandler g = Except.ok s2) ∧
    (∀ s2 : StoredHandler String Nat,
        applyStore s2 (some fun _ => none) =
          applyStore StoredHandler.unset (some fun _ => none)) ∧
    (execOps (fun n => toString n)
        (StoredHandler.unset : StoredHandler String Nat)
        ([HOp.dispatch ⟨["f1"]⟩ ⟨["f2"]⟩ 1] ++
          HOp.store (some fun _ => none) ::
            [HOp.dispatch ⟨["f1"]⟩ ⟨["f2"]⟩ 2])).2 =
      (execOps (fun n => toString n)
          (StoredHandler.unset : StoredHandler String Nat)
          [HOp.dispatch ⟨["f1"]⟩ ⟨["f2"]⟩ 1]).2 ++
        ([HOp.dispatch ⟨["f1"]⟩ ⟨["f2"]⟩ 2] : List (HOp String Nat)).filterMap
          (dispatchOf (fun n => toString n)
            (applyStore StoredHandler.unset (some fun _ => none))) :=
  handler_store_visibility (fun n => toString n)
    (StoredHandler.unset : StoredHandler String Nat)
    [HOp.dispatch ⟨["f1"]⟩ ⟨["f2"]⟩ 1] [HOp.dispatch ⟨["f1"]⟩ ⟨["f2"]⟩ 2]
    (some fun _ => none)
    (by
      intro op hop
      rw [List.mem_singleton] at hop
      subst hop
      rfl)

/-- C10: `SetPanicHandler nil` is accepted — the stored interface value
is a typed nil function, not a nil interface, so the atomic store does
not fault — and every later dispatch then takes the log fallback exactly
as if no handler had ever been set. -/
theorem setPanicHandler_nil_fallback (render : α → String)
    (st sth : StackTrace) :
    SetPanicHandler (ε := ε) (α := α) none =
        Except.ok StoredHandler.typedNil ∧
    (∀ p : α, handlePanic (ε := ε) render st sth StoredHandler.typedNil p =
        handlePanic render st sth StoredHandler.unset p) ∧
    (∀ p : α, handlePanic (ε := ε) render st sth StoredHandler.typedNil p =
        DispatchResult.logged (formatDetailed (panicError render st p) ++ "\n")) :=
  ⟨rfl, fun _ => rfl, fun _ => rfl⟩

end Safe
